import Mathlib

/-!
# feedfinder: discovery of feed URLs from a target URL

A shallow embedding of `finder.go`, `service.go` and `wellknown.go`.

* Go strings are Lean `String`s; the `strings` functions the program calls
  (`HasSuffix`, `HasPrefix`, `SplitN`) are written out on the characters.
* A Go call of type `([]Feed, error)` either returns the pair or panics
  (an index out of range); `Exec` keeps the two apart.
* The Go standard library and third-party calls whose result depends on the
  network or on a parser (`url.Parse`, `url.JoinPath`, the HTTP client,
  `gofeed`) are fields of `Externals`, so every theorem holds for every
  behaviour of them.
-/

namespace Feedfinder

/-! ## Data model (finder.go) -/

/-- The Go struct `Feed` (finder.go:12). -/
structure Feed where
  Title : String
  Link : String
deriving DecidableEq, Repr

/-- A non-nil Go `error` value. -/
structure GoError where
  msg : String
deriving DecidableEq, Repr

/-- The outcome of a Go call: it returns a value or it panics. -/
inductive Exec (α : Type) where
  | returns (a : α)
  | panics (msg : String)
deriving DecidableEq, Repr

/-- The pair `([]Feed, error)` a strategy returns; `err = none` is the nil error. -/
structure Ret where
  feeds : List Feed
  err : Option GoError
deriving DecidableEq, Repr

/-- What the program reads from a parsed `*url.URL`: the fields `Scheme`, `Host`
and `Path`, and the results of the methods `Hostname()`, `String()` (field `Str`) and
`Query().Get("list")`. -/
structure URL where
  Scheme : String
  Host : String
  Path : String
  Hostname : String
  Str : String
  QueryList : String
deriving DecidableEq, Repr

/-! ## The `strings` functions used by the matchers -/

/-- Go `strings.HasSuffix`. -/
def HasSuffix (s suffix : String) : Bool :=
  suffix.data.isSuffixOf s.data

/-- Go `strings.HasPrefix`. -/
def HasPrefix (s pre : String) : Bool :=
  pre.data.isPrefixOf s.data

/-- Go `strings.Index` on characters: the first position at which `sep` starts
in `s`, `none` for Go's `-1`. -/
def Index (sep : List Char) : List Char → Option Nat
  | [] => if sep.isEmpty then some 0 else none
  | c :: cs =>
    if sep.isPrefixOf (c :: cs) then some 0
    else (Index sep cs).map (· + 1)

/-- The loop of Go's `genSplit`: at most `n` cuts at `sep`, then the rest of the
string as the last element. -/
def genSplitLoop (sep : List Char) : Nat → List Char → List (List Char)
  | 0, s => [s]
  | n + 1, s =>
    match Index sep s with
    | none => [s]
    | some m => s.take m :: genSplitLoop sep n (s.drop (m + sep.length))

/-- Go `strings.SplitN(s, sep, n)` for `n ≥ 0`: `nil` for `n = 0`, otherwise at most
`n` substrings, the last one being the unsplit remainder. (The empty separator,
which the program never passes, explodes the string into characters.) -/
def SplitN (s sep : String) (n : Nat) : List String :=
  if n = 0 then []
  else if sep.data.isEmpty then
    (s.data.take (n - 1)).map (fun c => String.mk [c]) ++
      (if s.data.length < n then [] else [String.mk (s.data.drop (n - 1))])
  else (genSplitLoop sep.data (n - 1) s.data).map String.mk

/-! ## Regular expressions (`regexp.MatchString` on an anchored pattern) -/

/-- The fragment of RE2 syntax the two GitHub patterns are written in. -/
inductive Re where
  | cls (p : Char → Bool)
  | seq (r₁ r₂ : Re)
  | opt (r : Re)
  | rep (r : Re) (lo hi : Nat)

/-- All remainders after `step` has consumed between `lo` and `hi` pieces. -/
def repeatRun (step : List Char → List (List Char)) :
    Nat → Nat → List Char → List (List Char)
  | lo, 0, s => if lo = 0 then [s] else []
  | lo, hi + 1, s =>
    (if lo = 0 then [s] else []) ++
      (step s).flatMap (repeatRun step (lo - 1) hi)

/-- All remainders of `s` after a prefix of it matched `r`. -/
def Re.run : Re → List Char → List (List Char)
  | .cls p, s =>
    match s with
    | [] => []
    | c :: cs => if p c then [cs] else []
  | .seq r₁ r₂, s => (r₁.run s).flatMap r₂.run
  | .opt r, s => r.run s ++ [s]
  | .rep r lo hi, s => repeatRun r.run lo hi s

/-- Go `re.MatchString(s)` for a pattern `^r$` (without the `m` flag `^` and `$`
are the two ends of the text): the whole of `s` matches `r`. -/
def MatchString (r : Re) (s : String) : Bool :=
  (r.run s.data).any List.isEmpty

/-- Character range `lo-hi` of a class. -/
def inRange (lo hi c : Char) : Bool :=
  decide (lo.toNat ≤ c.toNat) && decide (c.toNat ≤ hi.toNat)

/-- The class `[a-zA-Z0-9]`. -/
def alnum (c : Char) : Bool :=
  inRange 'a' 'z' c || inRange 'A' 'Z' c || inRange '0' '9' c

/-- The class `[a-zA-Z0-9-_\.]`: after the range `0-9` the characters `-`, `_`
and `.` stand for themselves. -/
def repoChar (c : Char) : Bool :=
  inRange 'a' 'z' c || inRange 'A' 'Z' c || inRange '0' '9' c ||
    c == '-' || c == '_' || c == '.'

/-- The pattern `^[a-zA-Z0-9][a-zA-Z0-9-_\.]{0,98}[a-zA-Z0-9]$` (service.go:57). -/
def githubRepoRe : Re :=
  .seq (.cls alnum) (.seq (.rep (.cls repoChar) 0 98) (.cls alnum))

/-- The pattern `^[a-zA-Z0-9][-]?[a-zA-Z0-9]{0,38}$` (service.go:68). -/
def githubUserRe : Re :=
  .seq (.cls alnum) (.seq (.opt (.cls (fun c => c == '-'))) (.rep (.cls alnum) 0 38))

/-! ## Site matchers (service.go) -/

/-- The Go variable `githubGlobalFeed` (service.go:31). -/
def githubGlobalFeed : List Feed :=
  [ { Title := "global public timeline", Link := "https://github.com/timeline" },
    { Title := "global security advisories",
      Link := "https://github.com/security-advisories.atom" } ]

/-- Go `genGitHubUserFeed` (service.go:81). -/
def genGitHubUserFeed (username : String) : List Feed :=
  [ { Title := username ++ " public timeline",
      Link := "https://github.com/" ++ username ++ ".atom" } ]

/-- Go `genGitHubRepoFeed` (service.go:85). -/
def genGitHubRepoFeed (userRepo : String) : List Feed :=
  [ { Title := userRepo ++ " commits",
      Link := "https://github.com/" ++ userRepo ++ "/commits.atom" },
    { Title := userRepo ++ " releases",
      Link := "https://github.com/" ++ userRepo ++ "/releases.atom" },
    { Title := userRepo ++ " tags",
      Link := "https://github.com/" ++ userRepo ++ "/tags.atom" },
    { Title := userRepo ++ " wiki",
      Link := "https://github.com/" ++ userRepo ++ "/wiki.atom" } ]

/-- The run-time panic of the Go expression `s[i]` when `i` is not below `len(s)`. -/
def indexPanic (i len : Nat) : String :=
  "runtime error: index out of range [" ++ toString i ++ "] with length " ++ toString len

/-- The Go index expression `splited[i]`: the element, or the run-time panic. -/
def index (splited : List String) (i : Nat) : Exec String :=
  match splited.get? i with
  | some x => .returns x
  | none => .panics (indexPanic i splited.length)

/-- Go `Finder.githubMatcher` (service.go:37). Both patterns are valid, so
`regexp.Compile` returns a nil error and the two `err != nil` returns are never
taken. `splited[1]` and `splited[2]` are read under the length tests of lines 49
and 52. -/
def githubMatcher (target : URL) : Exec Ret :=
  if !HasSuffix target.Hostname "github.com" then .returns ⟨[], none⟩
  else
    let splited := SplitN target.Path "/" 4
    let splitedLen := splited.length
    if splitedLen < 2 then .returns ⟨githubGlobalFeed, none⟩
    else
      match (if splitedLen ≥ 2 then index splited 1 else .returns "") with
      | .panics m => .panics m
      | .returns username =>
      match (if splitedLen ≥ 3 then index splited 2 else .returns "") with
      | .panics m => .panics m
      | .returns reponame =>
        if reponame ≠ "" then
          if !MatchString githubRepoRe reponame then .returns ⟨[], none⟩
          else .returns ⟨genGitHubRepoFeed (username ++ "/" ++ reponame), none⟩
        else if username ≠ "" then
          if !MatchString githubUserRe username then .returns ⟨[], none⟩
          else .returns ⟨genGitHubUserFeed username, none⟩
        else .returns ⟨[], none⟩

/-- The Go variable `redditGlobalFeed` (service.go:94). -/
def redditGlobalFeed : List Feed :=
  [ { Title := "global", Link := "https://www.reddit.com/.rss" } ]

/-- Go `genRedditSubFeed` (service.go:129). -/
def genRedditSubFeed (sub : String) : List Feed :=
  [ { Title := "/r/" ++ sub ++ " hot", Link := "https://reddit.com/r/" ++ sub ++ "/hot/.rss" },
    { Title := "/r/" ++ sub ++ " new", Link := "https://reddit.com/r/" ++ sub ++ "/new/.rss" },
    { Title := "/r/" ++ sub ++ " top", Link := "https://reddit.com/r/" ++ sub ++ "/top/.rss" },
    { Title := "/r/" ++ sub ++ " rising",
      Link := "https://reddit.com/r/" ++ sub ++ "/rising/.rss" } ]

/-- Go `genRedditCommentFeed` (service.go:138). -/
def genRedditCommentFeed (fullURL : String) : List Feed :=
  [ { Title := "post", Link := fullURL ++ ".rss" } ]

/-- Go `genRedditUserFeed` (service.go:142). -/
def genRedditUserFeed (username : String) : List Feed :=
  [ { Title := "/u/" ++ username ++ " overview new",
      Link := "https://reddit.com/user/" ++ username ++ "/.rss?sort=new" },
    { Title := "/u/" ++ username ++ " overview hot",
      Link := "https://reddit.com/user/" ++ username ++ "/.rss?sort=hot" },
    { Title := "/u/" ++ username ++ " overview top",
      Link := "https://reddit.com/user/" ++ username ++ "/.rss?sort=top" },
    { Title := "/u/" ++ username ++ " post new",
      Link := "https://reddit.com/user/" ++ username ++ "/submitted/.rss?sort=new" },
    { Title := "/u/" ++ username ++ " post hot",
      Link := "https://reddit.com/user/" ++ username ++ "/submitted/.rss?sort=hot" },
    { Title := "/u/" ++ username ++ " post top",
      Link := "https://reddit.com/user/" ++ username ++ "/submitted/.rss?sort=top" },
    { Title := "/u/" ++ username ++ " comments new",
      Link := "https://reddit.com/user/" ++ username ++ "/comments/.rss?sort=new" },
    { Title := "/u/" ++ username ++ " comments hot",
      Link := "https://reddit.com/user/" ++ username ++ "/comments/.rss?sort=hot" },
    { Title := "/u/" ++ username ++ " comments top",
      Link := "https://reddit.com/user/" ++ username ++ "/comments/.rss?sort=top" },
    { Title := "/u/" ++ username ++ " awards received (legacy)",
      Link := "https://old.reddit.com/user/" ++ username ++ "/gilded/.rss" } ]

/-- Go `genRedditDomainSubmissionFeed` (service.go:157). -/
def genRedditDomainSubmissionFeed (domain : String) : List Feed :=
  [ { Title := "/domain/" ++ domain, Link := "https://reddit.com/domain/" ++ domain ++ "/.rss" } ]

/-- Go `Finder.redditMatcher` (service.go:99). Line 110 reads `splited[1]` and
`splited[2]` after the only length test `splitedLen < 2`; `splited[3]` is read
under `splitedLen >= 4`. -/
def redditMatcher (target : URL) : Exec Ret :=
  if !HasSuffix target.Hostname "reddit.com" then .returns ⟨[], none⟩
  else
    let splited := SplitN target.Path "/" 4
    let splitedLen := splited.length
    if splitedLen < 2 then .returns ⟨redditGlobalFeed, none⟩
    else
      match index splited 1 with
      | .panics m => .panics m
      | .returns mode =>
      match index splited 2 with
      | .panics m => .panics m
      | .returns param =>
        if mode = "r" then
          match (if splitedLen ≥ 4 then index splited 3 else .returns "") with
          | .panics m => .panics m
          | .returns rest =>
            if splitedLen ≥ 4 && HasPrefix rest "comments" then
              .returns ⟨genRedditCommentFeed target.Str, none⟩
            else .returns ⟨genRedditSubFeed param, none⟩
        else if mode = "user" then .returns ⟨genRedditUserFeed param, none⟩
        else if mode = "domain" then .returns ⟨genRedditDomainSubmissionFeed param, none⟩
        else .returns ⟨[], none⟩

/-! ## The collaborators outside the three source files -/

/-- The Go `*http.Client` of a `Finder`, as the program uses it. `Get` is
`httpClient.Get(url)` followed by `io.ReadAll` of the body (service.go:166-171);
`Do` is `http.NewRequestWithContext`, `httpClient.Do` and `io.ReadAll`
(wellknown.go:47-57). Either gives the body or the first error. -/
structure HTTPClient where
  Get : String → Except GoError String
  Do : String → Except GoError String

/-- The Go struct `Finder` (finder.go:17). -/
structure Finder where
  target : URL
  httpClient : HTTPClient

/-- The two fields the program reads of a `*gofeed.Feed`. -/
structure ParsedFeed where
  Title : String
  FeedLink : String

/-- The calls whose code is not in the three source files, as parameters:
`url.Parse`, `url.JoinPath`, `newClient` (given the proxy, if one is set),
`gofeed.NewParser().Parse` (a possibly nil feed and a possibly nil error),
`re.FindStringSubmatch` for the channel pattern of service.go:176, and the method
`Finder.tryPageSource`, the HTML sniffer. -/
structure Externals where
  urlParse : String → Except GoError URL
  urlJoinPath : String → String → Except GoError String
  newClient : Option URL → HTTPClient
  gofeedParse : String → Option ParsedFeed × Option GoError
  browseIDSubmatch : String → List String
  tryPageSource : Finder → Ret

/-- Go `Finder.youtubeMatcher` (service.go:161). -/
def youtubeMatcher (x : Externals) (s : Finder) : Exec Ret :=
  if !HasSuffix s.target.Hostname "youtube.com" && !HasSuffix s.target.Hostname "youtu.be" then
    .returns ⟨[], none⟩
  else
    match s.httpClient.Get s.target.Str with
    | .error err => .returns ⟨[], some err⟩
    | .ok content =>
      if HasPrefix s.target.Path "/@" then
        let submatch := x.browseIDSubmatch content
        if submatch.length < 2 then .returns ⟨[], none⟩
        else
          match index submatch 1 with
          | .panics m => .panics m
          | .returns id =>
            if id = "" then .returns ⟨[], none⟩
            else .returns ⟨[Feed.mk "Channel"
              ("https://www.youtube.com/feeds/videos.xml?channel_id=" ++ id)], none⟩
      else if HasPrefix s.target.Path "/playlist" then
        let id := s.target.QueryList
        if id = "" then .returns ⟨[], none⟩
        else .returns ⟨[Feed.mk "Playlist"
          ("https://www.youtube.com/feeds/videos.xml?playlist_id=" ++ id)], none⟩
      else .returns ⟨[], none⟩

/-! ## Well-known prober (wellknown.go) -/

/-- Go `isEmptyFeedLink` (finder.go:116): the feed is the zero value `Feed{}`. -/
def isEmptyFeedLink (feed : Feed) : Bool :=
  decide (feed = { Title := "", Link := "" })

/-- Modelled from the spec: `isEmptyFeed`, which `tryWellKnown` calls and no source
file declares. "A feed is empty/invalid when both fields are their zero value." -/
def isEmptyFeed (feed : Feed) : Bool :=
  decide (feed.Title = "" ∧ feed.Link = "")

/-- Go `parseRSSContent` (wellknown.go:64). -/
def parseRSSContent (x : Externals) (content : String) : Feed × Option GoError :=
  match x.gofeedParse content with
  | (_, some err) => ({ Title := "", Link := "" }, some err)
  | (none, none) => ({ Title := "", Link := "" }, none)
  | (some parsed, none) => ({ Title := parsed.Title, Link := parsed.FeedLink }, none)

/-- Go `Finder.parseRSSUrl` (wellknown.go:46). -/
def parseRSSUrl (x : Externals) (f : Finder) (target : String) : Feed × Option GoError :=
  match f.httpClient.Do target with
  | .error err => ({ Title := "", Link := "" }, some err)
  | .ok content => parseRSSContent x content

/-- The slice `wellKnown` of `tryWellKnown` (wellknown.go:14). -/
def wellKnown : List String :=
  ["atom.xml", "feed.xml", "rss.xml", "index.xml", "atom.json", "feed.json", "rss.json",
    "index.json", "feed/", "rss/"]

/-- The `for _, suffix := range wellKnown` loop of `tryWellKnown` (wellknown.go:28),
from the suffixes still to visit and the slice `feeds` built so far. -/
def tryWellKnownLoop (x : Externals) (f : Finder) (baseURL : String) :
    List String → List Feed → List Feed
  | [], feeds => feeds
  | suffix :: rest, feeds =>
    match x.urlJoinPath baseURL suffix with
    | .error _ => tryWellKnownLoop x f baseURL rest feeds
    | .ok newTarget =>
      match parseRSSUrl x f newTarget with
      | (_, some _) => tryWellKnownLoop x f baseURL rest feeds
      | (feed, none) =>
        if !isEmptyFeed feed then
          tryWellKnownLoop x f baseURL rest (feeds ++ [Feed.mk feed.Title newTarget])
        else tryWellKnownLoop x f baseURL rest feeds

/-- Go `Finder.tryWellKnown` (wellknown.go:13). -/
def tryWellKnown (x : Externals) (f : Finder) (baseURL : String) : Ret :=
  ⟨tryWellKnownLoop x f baseURL wellKnown [], none⟩

/-! ## Orchestration (service.go:13, finder.go:27-114) -/

/-- A strategy method of `Finder` that a run invokes. -/
inductive Call where
  | githubMatcher
  | redditMatcher
  | youtubeMatcher
  | tryPageSource
  | tryWellKnown (baseURL : String)
deriving DecidableEq, Repr

/-- What each strategy method of one `Finder` does when it is called. `Run` and
`tryService` only call them, so they are stated for every such behaviour;
`Finder.methods` gives the behaviour of the methods of the source. -/
structure Methods where
  githubMatcher : Exec Ret
  redditMatcher : Exec Ret
  youtubeMatcher : Exec Ret
  tryPageSource : Ret
  tryWellKnown : String → Ret

/-- The `for _, fn := range matcher` loop of `tryService` (service.go:19): the
matchers still to call, each with its name, and the calls made so far. -/
def tryServiceLoop : List (Call × Exec Ret) → List Call → Exec Ret × List Call
  | [], calls => (.returns ⟨[], none⟩, calls)
  | (name, fn) :: rest, calls =>
    match fn with
    | .panics msg => (.panics msg, calls ++ [name])
    | .returns ⟨feed, err⟩ =>
      if err ≠ none then tryServiceLoop rest (calls ++ [name])
      else if feed.length ≠ 0 then (.returns ⟨feed, none⟩, calls ++ [name])
      else tryServiceLoop rest (calls ++ [name])

/-- Go `Finder.tryService` (service.go:13), with the list of the calls it made. -/
def tryService (m : Methods) : Exec Ret × List Call :=
  tryServiceLoop
    [(.githubMatcher, m.githubMatcher), (.redditMatcher, m.redditMatcher),
      (.youtubeMatcher, m.youtubeMatcher)] []

/-- The Go map `feedMap` (finder.go:63): at most one entry for a key. -/
abbrev FeedMap := List (String × Feed)

/-- The Go assignment `feedMap[k] = v`. -/
def FeedMap.set : FeedMap → String → Feed → FeedMap
  | [], k, v => [(k, v)]
  | (k₀, v₀) :: rest, k, v =>
    if k₀ = k then (k, v) :: rest else (k₀, v₀) :: FeedMap.set rest k v

/-- The loop `for _, f := range data { feedMap[f.Link] = f }` (finder.go:78, 102). -/
def storeAll (data : List Feed) (feedMap : FeedMap) : FeedMap :=
  data.foldl (fun acc f => acc.set f.Link f) feedMap

/-- The order in which Go ranges over a map is not specified. The entries are
visited one by one; each number of `choices` picks the next one among those not
yet visited (when the numbers run out, the rest comes in stored order), so that
every order is the result of some `choices`. -/
def rangeOrder {α : Type} : List Nat → List α → List α
  | _, [] => []
  | [], xs => xs
  | n :: choices, x :: xs =>
    ((x :: xs).get? (n % (xs.length + 1))).toList ++
      rangeOrder choices ((x :: xs).eraseIdx (n % (xs.length + 1)))

/-- What the run leaves to the scheduler and the runtime: which of the two
goroutines locks `mu` first, and the order of the final range over `feedMap`. -/
structure Schedule where
  pageFirst : Bool
  mapOrder : List Nat

/-- Go `Finder.Run` (finder.go:53), with the list of the strategy calls it made.
The two goroutines only share `feedMap`, which each writes in one critical
section; `wg.Wait()` is passed once both are done. -/
def Run (m : Methods) (target : URL) (sched : Schedule) : Exec Ret × List Call :=
  match tryService m with
  | (.panics msg, calls) => (.panics msg, calls)
  | (.returns ⟨fromService, err⟩, calls) =>
    if err ≠ none then (.returns ⟨[], err⟩, calls)
    else if fromService.length ≠ 0 then (.returns ⟨fromService, none⟩, calls)
    else
      -- first goroutine: sniff in HTML
      let page := m.tryPageSource
      -- second goroutine: well-knowns under this url, then under the root path
      let underPath := target.Scheme ++ "://" ++ target.Host ++ target.Path
      let underRoot := target.Scheme ++ "://" ++ target.Host
      let first := m.tryWellKnown underPath
      let data := if first.feeds.length = 0 then (m.tryWellKnown underRoot).feeds else first.feeds
      let probes :=
        if first.feeds.length = 0 then [Call.tryWellKnown underPath, Call.tryWellKnown underRoot]
        else [Call.tryWellKnown underPath]
      let feedMap : FeedMap :=
        if sched.pageFirst then storeAll data (storeAll page.feeds [])
        else storeAll page.feeds (storeAll data [])
      let res := rangeOrder sched.mapOrder (feedMap.map Prod.snd)
      (.returns ⟨res, none⟩, calls ++ [Call.tryPageSource] ++ probes)

/-- The behaviour of the strategy methods of the source for the finder `f`. -/
def Finder.methods (x : Externals) (f : Finder) : Methods :=
  { githubMatcher := githubMatcher f.target
    redditMatcher := redditMatcher f.target
    youtubeMatcher := youtubeMatcher x f
    tryPageSource := x.tryPageSource f
    tryWellKnown := tryWellKnown x f }

/-- The Go struct `Options` (finder.go:22); `none` is the nil `*string`. -/
structure Options where
  ReqestProxy : Option String

/-- Go `Find` (finder.go:27); `options = none` is the nil pointer. -/
def Find (x : Externals) (sched : Schedule) (target : String) (options : Option Options) :
    Exec Ret × List Call :=
  match x.urlParse target with
  | .error err => (.returns ⟨[], some err⟩, [])
  | .ok u =>
    let proxy : Except GoError (Option URL) :=
      match options with
      | none => .ok none
      | some opts =>
        match opts.ReqestProxy with
        | none => .ok none
        | some p =>
          if p ≠ "" then
            match x.urlParse p with
            | .error err => .error err
            | .ok proxyURL => .ok (some proxyURL)
          else .ok none
    match proxy with
    | .error err => (.returns ⟨[], some err⟩, [])
    | .ok clientTransportOps =>
      let finder : Finder := { target := u, httpClient := x.newClient clientTransportOps }
      Run (finder.methods x) finder.target sched

/-! ## Definitions used to state and prove the properties -/

/-- What the body of the loop of `tryWellKnown` adds to `feeds` for one suffix. -/
def probe (x : Externals) (f : Finder) (baseURL suffix : String) : Option Feed :=
  match x.urlJoinPath baseURL suffix with
  | .error _ => none
  | .ok newTarget =>
    match parseRSSUrl x f newTarget with
    | (_, some _) => none
    | (feed, none) => if isEmptyFeed feed then none else some ⟨feed.Title, newTarget⟩

/-- The invariant of `feedMap` while the lists of `src` are stored: the keys are
distinct, every entry is stored under its own link and comes from `src`. -/
def FeedMap.Good (src : List Feed) (m : FeedMap) : Prop :=
  (m.map Prod.fst).Nodup ∧ ∀ p ∈ m, p.2.Link = p.1 ∧ p.2 ∈ src

/-! ## Sample targets and a sample environment

The records `url.Parse` gives for a few targets, and one fixed behaviour of the
collaborators: the site `example.com` serves a feed at `/atom.xml` only, and its
page at `/blog` advertises that feed and a comments feed. -/

/-- Parsed `https://github.com/torvalds/linux`. -/
def githubTorvaldsLinux : URL :=
  { Scheme := "https", Host := "github.com", Path := "/torvalds/linux",
    Hostname := "github.com", Str := "https://github.com/torvalds/linux", QueryList := "" }

/-- Parsed `https://github.com/bad%20user/linux`: the path is unescaped. -/
def githubBadUserLinux : URL :=
  { Scheme := "https", Host := "github.com", Path := "/bad user/linux",
    Hostname := "github.com", Str := "https://github.com/bad%20user/linux", QueryList := "" }

/-- Parsed `https://github.com/bad%20user`. -/
def githubBadUser : URL :=
  { Scheme := "https", Host := "github.com", Path := "/bad user",
    Hostname := "github.com", Str := "https://github.com/bad%20user", QueryList := "" }

/-- Parsed `https://github.com`. -/
def githubRoot : URL :=
  { Scheme := "https", Host := "github.com", Path := "",
    Hostname := "github.com", Str := "https://github.com", QueryList := "" }

/-- Parsed `https://github.com/`. -/
def githubRootSlash : URL :=
  { Scheme := "https", Host := "github.com", Path := "/",
    Hostname := "github.com", Str := "https://github.com/", QueryList := "" }

/-- Parsed `https://reddit.com/r/golang`. -/
def redditGolang : URL :=
  { Scheme := "https", Host := "reddit.com", Path := "/r/golang",
    Hostname := "reddit.com", Str := "https://reddit.com/r/golang", QueryList := "" }

/-- Parsed `https://reddit.com`. -/
def redditRoot : URL :=
  { Scheme := "https", Host := "reddit.com", Path := "",
    Hostname := "reddit.com", Str := "https://reddit.com", QueryList := "" }

/-- Parsed `https://www.reddit.com/`. -/
def redditRootSlash : URL :=
  { Scheme := "https", Host := "www.reddit.com", Path := "/",
    Hostname := "www.reddit.com", Str := "https://www.reddit.com/", QueryList := "" }

/-- Parsed `https://reddit.com/` followed by the one segment `seg`. -/
def redditOneSegment (seg : String) : URL :=
  { Scheme := "https", Host := "reddit.com", Path := "/" ++ seg,
    Hostname := "reddit.com", Str := "https://reddit.com/" ++ seg, QueryList := "" }

/-- Parsed `https://example.com/blog`. -/
def exampleBlog : URL :=
  { Scheme := "https", Host := "example.com", Path := "/blog",
    Hostname := "example.com", Str := "https://example.com/blog", QueryList := "" }

/-- A client for which `https://example.com/atom.xml` is the only URL that answers. -/
def sampleClient : HTTPClient :=
  { Get := fun _ => .error ⟨"no route to host"⟩
    Do := fun url =>
      if url = "https://example.com/atom.xml" then .ok "<feed>Example</feed>"
      else .error ⟨"404"⟩ }

/-- The sample environment. -/
def sampleExternals : Externals :=
  { urlParse := fun s =>
      if s = "https://reddit.com/r" then .ok (redditOneSegment "r")
      else if s = "https://reddit.com/r/golang" then .ok redditGolang
      else if s = "https://example.com/blog" then .ok exampleBlog
      else .error ⟨"parse " ++ s⟩
    urlJoinPath := fun base suffix => .ok (base ++ "/" ++ suffix)
    newClient := fun _ => sampleClient
    gofeedParse := fun content =>
      if content = "<feed>Example</feed>" then
        (some ⟨"Example", "https://feeds.example.net/main"⟩, none)
      else (none, some ⟨"Failed to detect feed type"⟩)
    browseIDSubmatch := fun _ => []
    tryPageSource := fun _ =>
      ⟨[⟨"Example (page)", "https://example.com/atom.xml"⟩,
        ⟨"Comments", "https://example.com/comments.xml"⟩], none⟩ }

/-- The finder `Find` builds for `https://example.com/blog` in the sample environment. -/
def sampleFinder : Finder :=
  { target := exampleBlog, httpClient := sampleClient }

/-! ## Splitting a path at `/` -/

theorem Index_none (c : Char) (seg : List Char) (h : c ∉ seg) : Index [c] seg = none := by
  induction seg with
  | nil => simp [Index]
  | cons a s ih =>
    simp only [List.mem_cons, not_or] at h
    simp [Index, List.isPrefixOf, h.1, ih h.2]

theorem Index_cut (c : Char) (seg rest : List Char) (h : c ∉ seg) :
    Index [c] (seg ++ c :: rest) = some seg.length := by
  induction seg with
  | nil => simp [Index, List.isPrefixOf]
  | cons a s ih =>
    simp only [List.mem_cons, not_or] at h
    simp [Index, List.isPrefixOf, h.1, ih h.2]

theorem genSplitLoop_last (c : Char) (n : Nat) (seg : List Char) (h : c ∉ seg) :
    genSplitLoop [c] n seg = [seg] := by
  cases n <;> simp [genSplitLoop, Index_none c seg h]

theorem genSplitLoop_cut (c : Char) (n : Nat) (seg rest : List Char) (h : c ∉ seg) :
    genSplitLoop [c] (n + 1) (seg ++ c :: rest) = seg :: genSplitLoop [c] n rest := by
  simp [genSplitLoop, Index_cut c seg rest h]

/-- The path `/a` splits into `["", a]`. -/
theorem SplitN_one (a : String) (ha : '/' ∉ a.data) :
    SplitN ("/" ++ a) "/" 4 = ["", a] := by
  have h0 : ("/" ++ a).data = [] ++ '/' :: a.data := by
    simp [String.data_append]
  have hsep : ("/" : String).data = ['/'] := rfl
  simp only [SplitN, hsep, h0]
  rw [genSplitLoop_cut _ _ _ _ (by simp), genSplitLoop_last _ _ _ ha]
  simp

/-- The path `/a/b` splits into `["", a, b]`. -/
theorem SplitN_two (a b : String) (ha : '/' ∉ a.data) (hb : '/' ∉ b.data) :
    SplitN ("/" ++ a ++ "/" ++ b) "/" 4 = ["", a, b] := by
  have h0 : ("/" ++ a ++ "/" ++ b).data = [] ++ '/' :: (a.data ++ '/' :: b.data) := by
    simp [String.data_append]
  have hsep : ("/" : String).data = ['/'] := rfl
  simp only [SplitN, hsep, h0]
  rw [genSplitLoop_cut _ _ _ _ (by simp), genSplitLoop_cut _ _ _ _ ha, genSplitLoop_last _ _ _ hb]
  simp

/-- The path `/a/b/rest` splits into `["", a, b, rest]`, whatever `rest` holds. -/
theorem SplitN_three (a b rest : String) (ha : '/' ∉ a.data) (hb : '/' ∉ b.data) :
    SplitN ("/" ++ a ++ "/" ++ b ++ "/" ++ rest) "/" 4 = ["", a, b, rest] := by
  have h0 : ("/" ++ a ++ "/" ++ b ++ "/" ++ rest).data
      = [] ++ '/' :: (a.data ++ '/' :: (b.data ++ '/' :: rest.data)) := by
    simp [String.data_append]
  have hsep : ("/" : String).data = ['/'] := rfl
  simp only [SplitN, hsep, h0]
  rw [genSplitLoop_cut _ _ _ _ (by simp), genSplitLoop_cut _ _ _ _ ha,
    genSplitLoop_cut _ _ _ _ hb]
  simp [genSplitLoop]

/-! ## The two patterns -/

theorem mem_run_cls (p : Char → Bool) (s rest : List Char) :
    rest ∈ (Re.cls p).run s ↔ ∃ c, s = c :: rest ∧ p c = true := by
  cases s with
  | nil => simp [Re.run]
  | cons c cs =>
    by_cases h : p c = true
    · simp only [Re.run, h, if_true, List.mem_singleton, List.cons.injEq]
      constructor
      · rintro rfl
        exact ⟨c, ⟨rfl, rfl⟩, h⟩
      · rintro ⟨d, ⟨rfl, rfl⟩, _⟩
        rfl
    · simp only [Re.run, h, List.cons.injEq]
      constructor
      · intro h2
        simp at h2
      · rintro ⟨d, ⟨rfl, rfl⟩, hd⟩
        exact absurd hd h

theorem mem_repeatRun_cls (p : Char → Bool) (lo hi : Nat) (s rest : List Char) :
    rest ∈ repeatRun (Re.cls p).run lo hi s ↔
      ∃ pre, s = pre ++ rest ∧ lo ≤ pre.length ∧ pre.length ≤ hi ∧ ∀ c ∈ pre, p c = true := by
  induction hi generalizing lo s with
  | zero =>
    simp only [repeatRun]
    constructor
    · intro h
      by_cases hlo : lo = 0
      · simp only [hlo, if_true, List.mem_singleton] at h
        exact ⟨[], by simp [h], by omega, by simp, by simp⟩
      · simp [hlo] at h
    · rintro ⟨pre, hs, h1, h2, _⟩
      have : pre = [] := List.length_eq_zero.1 (by omega)
      subst this
      have hlo : lo = 0 := by simpa using h1
      simp [hlo, hs]
  | succ hi ih =>
    simp only [repeatRun, List.mem_append, List.mem_flatMap, mem_run_cls, ih]
    constructor
    · rintro (h | ⟨cs, ⟨c, hs, hc⟩, pre, hcs, h1, h2, h3⟩)
      · by_cases hlo : lo = 0
        · simp only [hlo, if_true, List.mem_singleton] at h
          exact ⟨[], by simp [h], by omega, by simp, by simp⟩
        · simp [hlo] at h
      · refine ⟨c :: pre, by simp [hs, hcs], by simp; omega, by simp; omega, ?_⟩
        intro d hd
        rcases List.mem_cons.1 hd with rfl | hd
        · exact hc
        · exact h3 d hd
    · rintro ⟨pre, hs, h1, h2, h3⟩
      cases pre with
      | nil =>
        left
        have hlo : lo = 0 := by simpa using h1
        simp [hlo, hs]
      | cons c pre =>
        right
        refine ⟨pre ++ rest, ⟨c, by simp [hs], h3 c (List.mem_cons_self _ _)⟩, pre, rfl, ?_, ?_, ?_⟩
        · simp at h1; omega
        · simp at h2; omega
        · intro d hd
          exact h3 d (List.mem_cons_of_mem _ hd)

theorem run_seq (r₁ r₂ : Re) (s : List Char) :
    (Re.seq r₁ r₂).run s = (r₁.run s).flatMap r₂.run := by
  simp [Re.run]

theorem run_opt (r : Re) (s : List Char) : (Re.opt r).run s = r.run s ++ [s] := by
  simp [Re.run]

theorem run_rep (r : Re) (lo hi : Nat) (s : List Char) :
    (Re.rep r lo hi).run s = repeatRun r.run lo hi s := by
  simp [Re.run]

/-- The repository pattern read off by hand: a letter or digit, at most 98
characters of letters, digits, `-`, `_`, `.`, and a letter or digit. -/
theorem MatchString_githubRepoRe (s : String) :
    MatchString githubRepoRe s = true ↔
      ∃ a mid z, s.data = a :: (mid ++ [z]) ∧ alnum a = true ∧ alnum z = true ∧
        mid.length ≤ 98 ∧ ∀ c ∈ mid, repoChar c = true := by
  simp only [MatchString, githubRepoRe, run_seq, run_opt, run_rep, List.any_eq_true, List.mem_flatMap,
    mem_run_cls, mem_repeatRun_cls, List.isEmpty_iff]
  constructor
  · rintro ⟨e, ⟨r₁, ⟨a, hs, ha⟩, r₂, ⟨mid, hr₁, _, hlen, hmid⟩, z, hr₂, hz⟩, rfl⟩
    exact ⟨a, mid, z, by rw [hs, hr₁, hr₂], ha, hz, hlen, hmid⟩
  · rintro ⟨a, mid, z, hs, ha, hz, hlen, hmid⟩
    exact ⟨[], ⟨mid ++ [z], ⟨a, hs, ha⟩, [z], ⟨mid, rfl, Nat.zero_le _, hlen, hmid⟩, z, rfl, hz⟩,
      rfl⟩

/-- The username pattern read off by hand: a letter or digit, an optional `-`, and
at most 38 letters or digits. -/
theorem MatchString_githubUserRe (s : String) :
    MatchString githubUserRe s = true ↔
      ∃ a hyphen tail, s.data = a :: (hyphen ++ tail) ∧ alnum a = true ∧
        (hyphen = [] ∨ hyphen = ['-']) ∧ tail.length ≤ 38 ∧ ∀ c ∈ tail, alnum c = true := by
  simp only [MatchString, githubUserRe, run_seq, run_opt, run_rep, List.any_eq_true, List.mem_flatMap,
    mem_run_cls, mem_repeatRun_cls, List.isEmpty_iff, List.mem_append, List.mem_singleton]
  constructor
  · rintro ⟨e, ⟨r₁, ⟨a, hs, ha⟩, r₂, hr₂, tail, htail, _, hlen, hall⟩, rfl⟩
    rcases hr₂ with ⟨c, hr₁, hc⟩ | rfl
    · have hc2 : c = '-' := by simpa using hc
      subst hc2
      exact ⟨a, ['-'], tail, by simp [hs, hr₁, htail], ha, Or.inr rfl, hlen, hall⟩
    · exact ⟨a, [], tail, by simp [hs, htail], ha, Or.inl rfl, hlen, hall⟩
  · rintro ⟨a, hyphen, tail, hs, ha, hh, hlen, hall⟩
    rcases hh with rfl | rfl
    · exact ⟨[], ⟨tail, ⟨a, by simpa using hs, ha⟩, tail, Or.inr rfl, tail, by simp,
        Nat.zero_le _, hlen, hall⟩, rfl⟩
    · exact ⟨[], ⟨'-' :: tail, ⟨a, by simpa using hs, ha⟩, tail, Or.inl ⟨'-', rfl, by decide⟩,
        tail, by simp, Nat.zero_le _, hlen, hall⟩, rfl⟩

/-! ## The matchers return or panic -/

theorem index_returns (splited : List String) (i : Nat) (h : i < splited.length) :
    ∃ x, index splited i = .returns x := by
  obtain ⟨x, hx⟩ : ∃ x, splited.get? i = some x := ⟨_, List.get?_eq_get h⟩
  exact ⟨x, by unfold index; rw [hx]⟩

/-- githubMatcher always returns, with a nil error. -/
theorem githubMatcher_returns (target : URL) :
    ∃ feeds, githubMatcher target = .returns ⟨feeds, none⟩ := by
  unfold githubMatcher
  split
  · exact ⟨_, rfl⟩
  · simp only
    split
    · exact ⟨_, rfl⟩
    · rename_i hlen
      have h2 : 2 ≤ (SplitN target.Path "/" 4).length := by omega
      obtain ⟨u, hu⟩ := index_returns (SplitN target.Path "/" 4) 1 (by omega)
      simp only [ge_iff_le, h2, if_true, hu]
      by_cases h3 : 3 ≤ (SplitN target.Path "/" 4).length
      · obtain ⟨r, hr⟩ := index_returns (SplitN target.Path "/" 4) 2 (by omega)
        simp only [h3, if_true, hr]
        split
        · split <;> exact ⟨_, rfl⟩
        · split
          · split <;> exact ⟨_, rfl⟩
          · exact ⟨_, rfl⟩
      · simp only [h3, if_false]
        split
        · split <;> exact ⟨_, rfl⟩
        · split
          · split <;> exact ⟨_, rfl⟩
          · exact ⟨_, rfl⟩

/-- youtubeMatcher always returns. -/
theorem youtubeMatcher_returns (x : Externals) (s : Finder) :
    ∃ r, youtubeMatcher x s = .returns r := by
  unfold youtubeMatcher
  split
  · exact ⟨_, rfl⟩
  · split
    · exact ⟨_, rfl⟩
    · split
      · simp only
        split
        · exact ⟨_, rfl⟩
        · rename_i hlen
          obtain ⟨id, hid⟩ := index_returns (x.browseIDSubmatch ‹String›) 1 (by omega)
          simp only [hid]
          split <;> exact ⟨_, rfl⟩
      · split
        · simp only
          split <;> exact ⟨_, rfl⟩
        · exact ⟨_, rfl⟩

/-- On a reddit.com target with a one-segment path redditMatcher panics. -/
theorem redditMatcher_panics_of_one_segment (target : URL) (seg : String)
    (hhost : HasSuffix target.Hostname "reddit.com" = true)
    (hpath : target.Path = "/" ++ seg) (hseg : '/' ∉ seg.data) :
    redditMatcher target = .panics "runtime error: index out of range [2] with length 2" := by
  simp only [redditMatcher, hhost, hpath, SplitN_one seg hseg]
  simp [index]
  decide

/-! ## The matcher loop -/

/-- A matcher that returns an error or an empty list is skipped. -/
theorem tryServiceLoop_skip (name : Call) (fn : Exec Ret) (r : Ret)
    (rest : List (Call × Exec Ret)) (calls : List Call)
    (h : fn = .returns r) (hs : r.err ≠ none ∨ r.feeds = []) :
    tryServiceLoop ((name, fn) :: rest) calls = tryServiceLoop rest (calls ++ [name]) := by
  obtain ⟨feeds, err⟩ := r
  simp only at hs
  subst h
  rcases hs with hs | hs
  · simp [tryServiceLoop, hs]
  · subst hs
    cases err <;> simp [tryServiceLoop]

/-- A matcher that returns a non-empty list and no error ends the loop. -/
theorem tryServiceLoop_hit (name : Call) (fn : Exec Ret) (r : Ret)
    (rest : List (Call × Exec Ret)) (calls : List Call)
    (h : fn = .returns r) (he : r.err = none) (hf : r.feeds ≠ []) :
    tryServiceLoop ((name, fn) :: rest) calls = (.returns ⟨r.feeds, none⟩, calls ++ [name]) := by
  obtain ⟨feeds, err⟩ := r
  simp only at he hf
  subst h he
  simp [tryServiceLoop, hf]

/-- `tryService` never returns a non-nil error. -/
theorem tryServiceLoop_err (ms : List (Call × Exec Ret)) (calls calls₂ : List Call) (r : Ret)
    (h : tryServiceLoop ms calls = (.returns r, calls₂)) : r.err = none := by
  induction ms generalizing calls with
  | nil =>
    simp only [tryServiceLoop, Prod.mk.injEq, Exec.returns.injEq] at h
    rw [← h.1]
  | cons p rest ih =>
    obtain ⟨name, fn⟩ := p
    cases fn with
    | panics msg => simp [tryServiceLoop] at h
    | returns r₀ =>
      obtain ⟨feed, err⟩ := r₀
      simp only [tryServiceLoop] at h
      split at h
      · exact ih _ h
      · split at h
        · simp only [Prod.mk.injEq, Exec.returns.injEq] at h
          rw [← h.1]
        · exact ih _ h

/-! ## The merge into `feedMap` -/

theorem perm_get_eraseIdx {α : Type} (l : List α) (i : Nat) (a : α) (h : l.get? i = some a) :
    List.Perm l (a :: l.eraseIdx i) := by
  induction l generalizing i with
  | nil => simp at h
  | cons x xs ih =>
    cases i with
    | zero =>
      simp at h
      subst h
      simp
    | succ j =>
      simp at h
      have := ih j (by simpa using h)
      simp only [List.eraseIdx_cons_succ]
      exact (List.Perm.cons x this).trans (List.Perm.swap a x _)

/-- A range over the map visits every entry once. -/
theorem rangeOrder_perm {α : Type} (choices : List Nat) (xs : List α) :
    List.Perm (rangeOrder choices xs) xs := by
  induction choices generalizing xs with
  | nil => cases xs <;> simp [rangeOrder]
  | cons n choices ih =>
    cases xs with
    | nil => simp [rangeOrder]
    | cons x xs =>
      have hlt : n % (xs.length + 1) < (x :: xs).length := by
        simpa using Nat.mod_lt n (Nat.succ_pos xs.length)
      obtain ⟨a, ha⟩ : ∃ a, (x :: xs).get? (n % (xs.length + 1)) = some a :=
        ⟨_, List.get?_eq_get hlt⟩
      rw [rangeOrder, ha]
      simp only [Option.toList, List.singleton_append]
      exact ((ih _).cons a).trans (perm_get_eraseIdx _ _ _ ha).symm

/-- Every order of the entries is the result of some choices. -/
theorem rangeOrder_complete {α : Type} (ys xs : List α) (h : List.Perm ys xs) :
    ∃ choices, rangeOrder choices xs = ys := by
  induction ys generalizing xs with
  | nil =>
    have : xs = [] := h.symm.eq_nil
    exact ⟨[], by simp [this, rangeOrder]⟩
  | cons y ys ih =>
    have hy : y ∈ xs := h.subset (List.mem_cons_self _ _)
    obtain ⟨i, hi⟩ := List.get?_of_mem hy
    have hlt : i < xs.length := by
      by_contra hge
      rw [List.get?_eq_none.2 (by omega)] at hi
      cases hi
    have hperm : List.Perm ys (xs.eraseIdx i) :=
      List.Perm.cons_inv (h.trans (perm_get_eraseIdx xs i y hi))
    obtain ⟨choices, hc⟩ := ih _ hperm
    cases xs with
    | nil => simp at hlt
    | cons x xs =>
      have hmod : i % (xs.length + 1) = i := Nat.mod_eq_of_lt (by simpa using hlt)
      exact ⟨i :: choices, by rw [rangeOrder, hmod, hi, hc]; rfl⟩

theorem FeedMap.set_keys (m : FeedMap) (k : String) (v : Feed) :
    (m.set k v).map Prod.fst
      = if k ∈ m.map Prod.fst then m.map Prod.fst else m.map Prod.fst ++ [k] := by
  induction m with
  | nil => simp [FeedMap.set]
  | cons p rest ih =>
    obtain ⟨k₀, v₀⟩ := p
    by_cases h : k₀ = k
    · simp [FeedMap.set, h]
    · have h2 : ¬ k = k₀ := fun e => h e.symm
      simp only [FeedMap.set, h, if_false, List.map_cons, ih, List.mem_cons, h2, false_or]
      split <;> simp

theorem FeedMap.set_values (m : FeedMap) (k : String) (v : Feed) :
    ∀ p ∈ m.set k v, p = (k, v) ∨ p ∈ m := by
  induction m with
  | nil => simp [FeedMap.set]
  | cons p rest ih =>
    obtain ⟨k₀, v₀⟩ := p
    by_cases h : k₀ = k
    · intro q hq
      simp only [FeedMap.set, h, if_true, List.mem_cons] at hq
      rcases hq with hq | hq
      · exact Or.inl hq
      · exact Or.inr (List.mem_cons_of_mem _ hq)
    · intro q hq
      simp only [FeedMap.set, h, if_false, List.mem_cons] at hq
      rcases hq with hq | hq
      · simp [hq]
      · rcases ih q hq with h3 | h3
        · exact Or.inl h3
        · exact Or.inr (List.mem_cons_of_mem _ h3)

/-- Storing a list keeps the invariant and adds exactly the links of the list
to the keys. -/
theorem storeAll_good (src data : List Feed) (m : FeedMap) (hm : FeedMap.Good src m)
    (hsub : ∀ f ∈ data, f ∈ src) :
    FeedMap.Good src (storeAll data m) ∧
      ∀ k, k ∈ (storeAll data m).map Prod.fst ↔ k ∈ m.map Prod.fst ∨ k ∈ data.map Feed.Link := by
  induction data generalizing m with
  | nil => simp [storeAll, hm]
  | cons f rest ih =>
    have hstep : FeedMap.Good src (m.set f.Link f) := by
      refine ⟨?_, ?_⟩
      · rw [FeedMap.set_keys]
        split
        · exact hm.1
        · rename_i hnot
          exact List.Nodup.append hm.1 (List.nodup_singleton _) (by simpa using hnot)
      · intro p hp
        rcases FeedMap.set_values m f.Link f p hp with h | h
        · subst h
          exact ⟨rfl, hsub f (List.mem_cons_self _ _)⟩
        · exact hm.2 p h
    have := ih (m.set f.Link f) hstep (fun g hg => hsub g (List.mem_cons_of_mem _ hg))
    refine ⟨by simpa [storeAll] using this.1, ?_⟩
    intro k
    have h2 := this.2 k
    simp only [storeAll, List.foldl_cons] at h2 ⊢
    rw [h2, FeedMap.set_keys]
    split <;> rename_i hmem
    · simp only [List.map_cons, List.mem_cons]
      constructor
      · rintro (h | h)
        · exact Or.inl h
        · exact Or.inr (Or.inr h)
      · rintro (h | h | h)
        · exact Or.inl h
        · exact Or.inl (h ▸ hmem)
        · exact Or.inr h
    · simp only [List.map_cons, List.mem_cons, List.mem_append, List.mem_singleton]
      tauto

/-- The values of a good map, ranged over in any order, carry each contributed
link once and are contributed feeds. -/
theorem rangeOrder_good (src : List Feed) (m : FeedMap) (choices : List Nat)
    (hg : FeedMap.Good src m) (hk : ∀ k, k ∈ m.map Prod.fst ↔ k ∈ src.map Feed.Link) :
    ((rangeOrder choices (m.map Prod.snd)).map Feed.Link).Nodup ∧
      (∀ link, link ∈ (rangeOrder choices (m.map Prod.snd)).map Feed.Link
        ↔ link ∈ src.map Feed.Link) ∧
      (∀ f ∈ rangeOrder choices (m.map Prod.snd), f ∈ src) := by
  have hperm := rangeOrder_perm choices (m.map Prod.snd)
  have hlinks : (m.map Prod.snd).map Feed.Link = m.map Prod.fst := by
    rw [List.map_map]
    apply List.map_congr_left
    intro p hp
    exact (hg.2 p hp).1
  refine ⟨?_, ?_, ?_⟩
  · rw [(hperm.map Feed.Link).nodup_iff, hlinks]
    exact hg.1
  · intro link
    rw [(hperm.map Feed.Link).mem_iff, hlinks]
    exact hk link
  · intro f hf
    have := hperm.mem_iff.1 hf
    obtain ⟨p, hp, rfl⟩ := List.mem_map.1 this
    exact (hg.2 p hp).2

/-! ## The well-known loop -/

/-- The emptiness test modelled from the spec is the test `isEmptyFeedLink` of
finder.go. -/
theorem isEmptyFeed_eq_isEmptyFeedLink (feed : Feed) :
    isEmptyFeed feed = isEmptyFeedLink feed := by
  obtain ⟨title, link⟩ := feed
  simp [isEmptyFeed, isEmptyFeedLink]

theorem tryWellKnownLoop_eq (x : Externals) (f : Finder) (baseURL : String)
    (suffixes : List String) (feeds : List Feed) :
    tryWellKnownLoop x f baseURL suffixes feeds
      = feeds ++ suffixes.filterMap (probe x f baseURL) := by
  induction suffixes generalizing feeds with
  | nil => simp [tryWellKnownLoop]
  | cons s rest ih =>
    have e : probe x f baseURL s = (match x.urlJoinPath baseURL s with
      | .error _ => none
      | .ok newTarget =>
        match parseRSSUrl x f newTarget with
        | (_, some _) => none
        | (feed, none) => if isEmptyFeed feed then none else some ⟨feed.Title, newTarget⟩) := rfl
    rw [tryWellKnownLoop, List.filterMap_cons, e]
    cases hj : x.urlJoinPath baseURL s with
    | error e => simp [ih]
    | ok u =>
      rcases hp : parseRSSUrl x f u with ⟨feed, _ | err⟩
      · by_cases he : isEmptyFeed feed = true
        · simp [hp, he, ih]
        · simp [hp, he, ih]
      · simp [hp, ih]

/-! ## The orchestrator: `tryService`, `Run`, `Find` -/

/-- Claim C1: the first site matcher, in the order githubMatcher, redditMatcher,
youtubeMatcher, that returns a non-empty list with a nil error decides the run.
`Run` returns exactly its list and a nil error; the matchers before it, which
returned an error or an empty list, were skipped; the calls made are the matchers
up to that one, so neither `tryPageSource` nor `tryWellKnown` is invoked (and no
later matcher either, whatever it would do). -/
theorem Run_first_matcher_wins (m : Methods) (target : URL) (sched : Schedule) :
    (∀ r₁, m.githubMatcher = .returns r₁ → r₁.err = none → r₁.feeds ≠ [] →
      Run m target sched = (.returns ⟨r₁.feeds, none⟩, [.githubMatcher])) ∧
    (∀ r₁ r₂, m.githubMatcher = .returns r₁ → (r₁.err ≠ none ∨ r₁.feeds = []) →
      m.redditMatcher = .returns r₂ → r₂.err = none → r₂.feeds ≠ [] →
      Run m target sched = (.returns ⟨r₂.feeds, none⟩, [.githubMatcher, .redditMatcher])) ∧
    (∀ r₁ r₂ r₃, m.githubMatcher = .returns r₁ → (r₁.err ≠ none ∨ r₁.feeds = []) →
      m.redditMatcher = .returns r₂ → (r₂.err ≠ none ∨ r₂.feeds = []) →
      m.youtubeMatcher = .returns r₃ → r₃.err = none → r₃.feeds ≠ [] →
      Run m target sched
        = (.returns ⟨r₃.feeds, none⟩, [.githubMatcher, .redditMatcher, .youtubeMatcher])) := by
  refine ⟨?_, ?_, ?_⟩
  · intro r₁ h₁ he hf
    have hne : ¬ r₁.feeds.length = 0 := by simpa using hf
    simp [Run, tryService, tryServiceLoop_hit _ _ r₁ _ _ h₁ he hf, hne]
  · intro r₁ r₂ h₁ hs₁ h₂ he hf
    have hne : ¬ r₂.feeds.length = 0 := by simpa using hf
    simp [Run, tryService, tryServiceLoop_skip _ _ r₁ _ _ h₁ hs₁,
      tryServiceLoop_hit _ _ r₂ _ _ h₂ he hf, hne]
  · intro r₁ r₂ r₃ h₁ hs₁ h₂ hs₂ h₃ he hf
    have hne : ¬ r₃.feeds.length = 0 := by simpa using hf
    simp [Run, tryService, tryServiceLoop_skip _ _ r₁ _ _ h₁ hs₁,
      tryServiceLoop_skip _ _ r₂ _ _ h₂ hs₂, tryServiceLoop_hit _ _ r₃ _ _ h₃ he hf, hne]

/-- Claim C1 on `https://reddit.com/r/golang`: githubMatcher returns nothing,
redditMatcher returns four feeds, and the run ends there. -/
theorem Run_first_matcher_wins_witness :
    Run (Finder.methods sampleExternals ⟨redditGolang, sampleClient⟩) redditGolang ⟨true, []⟩
      = (.returns ⟨genRedditSubFeed "golang", none⟩, [.githubMatcher, .redditMatcher]) :=
  (Run_first_matcher_wins (Finder.methods sampleExternals ⟨redditGolang, sampleClient⟩)
    redditGolang ⟨true, []⟩).2.1 ⟨[], none⟩ ⟨genRedditSubFeed "golang", none⟩
    (by decide) (Or.inr rfl) (by decide) rfl (by decide)

/-- `Run` never returns a non-nil error. -/
theorem Run_err (m : Methods) (target : URL) (sched : Schedule) (r : Ret) (calls : List Call)
    (h : Run m target sched = (.returns r, calls)) : r.err = none := by
  unfold Run at h
  rcases hs : tryService m with ⟨_ | msg, calls₀⟩
  · rename_i r₀
    obtain ⟨fromService, err⟩ := r₀
    have herr : err = none := tryServiceLoop_err _ _ _ _ hs
    subst herr
    rw [hs] at h
    simp only [ne_eq, not_true_eq_false, if_false] at h
    split at h
    · simp only [Prod.mk.injEq, Exec.returns.injEq] at h
      rw [← h.1]
    · simp only [Prod.mk.injEq, Exec.returns.injEq] at h
      rw [← h.1]
  · rw [hs] at h
    simp at h

theorem tryServiceLoop_returns (ms : List (Call × Exec Ret)) (calls : List Call)
    (h : ∀ p ∈ ms, ∃ r, p.2 = .returns r) :
    ∃ r calls₂, tryServiceLoop ms calls = (.returns r, calls₂) := by
  induction ms generalizing calls with
  | nil => exact ⟨_, _, rfl⟩
  | cons p rest ih =>
    obtain ⟨name, fn⟩ := p
    obtain ⟨⟨feed, err⟩, hr⟩ := h (name, fn) (List.mem_cons_self _ _)
    simp only at hr
    subst hr
    have ih2 := fun c => ih c (fun q hq => h q (List.mem_cons_of_mem _ hq))
    simp only [tryServiceLoop]
    split
    · exact ih2 _
    · split
      · exact ⟨_, _, rfl⟩
      · exact ih2 _

/-- `Run` returns, with a nil error, whenever its three matchers return. -/
theorem Run_returns (m : Methods) (target : URL) (sched : Schedule) (r₁ r₂ r₃ : Ret)
    (h₁ : m.githubMatcher = .returns r₁) (h₂ : m.redditMatcher = .returns r₂)
    (h₃ : m.youtubeMatcher = .returns r₃) :
    ∃ feeds calls, Run m target sched = (.returns ⟨feeds, none⟩, calls) := by
  have key : ∃ r calls, Run m target sched = (.returns r, calls) := by
    obtain ⟨⟨feeds, err⟩, calls, hs⟩ := tryServiceLoop_returns
      [(.githubMatcher, m.githubMatcher), (.redditMatcher, m.redditMatcher),
        (.youtubeMatcher, m.youtubeMatcher)] [] (by
        intro p hp
        simp only [List.mem_cons, List.mem_singleton, List.not_mem_nil, or_false] at hp
        rcases hp with rfl | rfl | rfl
        · exact ⟨_, h₁⟩
        · exact ⟨_, h₂⟩
        · exact ⟨_, h₃⟩)
    unfold Run tryService
    rw [hs]
    simp only
    split
    · exact ⟨_, _, rfl⟩
    · split <;> exact ⟨_, _, rfl⟩
  obtain ⟨⟨feeds, err⟩, calls, h⟩ := key
  have := Run_err m target sched _ calls h
  simp only at this
  subst this
  exact ⟨feeds, calls, h⟩

/-- The part of claim C2 that holds on every input: whenever `Find` returns, its
error is non-nil exactly when parsing the target failed, or `options` carries a
non-nil, non-empty `ReqestProxy` whose parsing failed. -/
theorem Find_error_iff (x : Externals) (sched : Schedule) (target : String)
    (options : Option Options) (r : Ret) (calls : List Call)
    (h : Find x sched target options = (.returns r, calls)) :
    r.err ≠ none ↔
      ((∃ e, x.urlParse target = .error e) ∨
        (∃ u p e, x.urlParse target = .ok u ∧ options = some ⟨some p⟩ ∧ p ≠ "" ∧
          x.urlParse p = .error e)) := by
  unfold Find at h
  cases ht : x.urlParse target with
  | error e =>
    rw [ht] at h
    simp only [Prod.mk.injEq, Exec.returns.injEq] at h
    rw [← h.1]
    simp
  | ok u =>
    rw [ht] at h
    simp only at h
    rcases options with _ | ⟨_ | p⟩
    · simp only at h
      simp [Run_err _ _ _ _ _ h]
    · simp only at h
      simp [Run_err _ _ _ _ _ h]
    · simp only at h
      by_cases hp : p = ""
      · simp only [hp, ne_eq, not_true_eq_false, if_false] at h
        simp [Run_err _ _ _ _ _ h, hp]
      · simp only [hp, ne_eq, not_false_eq_true, if_true] at h
        cases hpp : x.urlParse p with
        | error e =>
          rw [hpp] at h
          simp only [Prod.mk.injEq, Exec.returns.injEq] at h
          rw [← h.1]
          simp [hp, hpp]
        | ok proxyURL =>
          rw [hpp] at h
          simp only at h
          simp [Run_err _ _ _ _ _ h, hpp]

/-- What holds of claim C2: on a target for which redditMatcher returns (any
target that is not a reddit.com URL with a one-segment path), `Find` returns, and
its error is non-nil exactly when the target or a non-empty proxy fails to parse. -/
theorem Find_returns (x : Externals) (sched : Schedule) (target : String)
    (options : Option Options)
    (hreddit : ∀ u, x.urlParse target = .ok u → ∃ r, redditMatcher u = .returns r) :
    ∃ r calls, Find x sched target options = (.returns r, calls) ∧
      (r.err ≠ none ↔
        ((∃ e, x.urlParse target = .error e) ∨
          (∃ u p e, x.urlParse target = .ok u ∧ options = some ⟨some p⟩ ∧ p ≠ "" ∧
            x.urlParse p = .error e))) := by
  have key : ∃ r calls, Find x sched target options = (.returns r, calls) := by
    unfold Find
    cases ht : x.urlParse target with
    | error e => exact ⟨_, _, rfl⟩
    | ok u =>
      obtain ⟨r₂, h₂⟩ := hreddit u ht
      have run : ∀ c : HTTPClient, ∃ r calls,
          Run (Finder.methods x ⟨u, c⟩) u sched = (.returns r, calls) := by
        intro c
        obtain ⟨f₁, h₁⟩ := githubMatcher_returns u
        obtain ⟨r₃, h₃⟩ := youtubeMatcher_returns x ⟨u, c⟩
        obtain ⟨feeds, calls, h⟩ := Run_returns (Finder.methods x ⟨u, c⟩) u sched _ _ _ h₁ h₂ h₃
        exact ⟨_, _, h⟩
      simp only
      rcases options with _ | ⟨_ | p⟩
      · exact run _
      · exact run _
      · simp only
        by_cases hp : p = ""
        · simp only [hp, ne_eq, not_true_eq_false, if_false]
          exact run _
        · simp only [hp, ne_eq, not_false_eq_true, if_true]
          cases hpp : x.urlParse p with
          | error e => exact ⟨_, _, rfl⟩
          | ok proxyURL => exact run _
  obtain ⟨r, calls, h⟩ := key
  exact ⟨r, calls, h, Find_error_iff x sched target options r calls h⟩

/-- Claim C2 at the failing input `https://reddit.com/r`, with nil options: the
target parses, githubMatcher returns nothing, and redditMatcher reads
`splited[2]` of a slice of length 2. `Find` does not return a nil error: it does
not return. -/
theorem Find_reddit_one_segment_panics (sched : Schedule) :
    Find sampleExternals sched "https://reddit.com/r" none
      = (.panics "runtime error: index out of range [2] with length 2",
          [.githubMatcher, .redditMatcher]) := by
  rfl

/-- Claim C3: when every site matcher returned an error or an empty list, then
for the list `sniffed` of the HTML sniffer, the list `probed` of the well-known
prober (under the path, or under the root when that was empty), either order of
the two critical sections and every order of the final range over the map, `Run`
returns, with a nil error, a list whose links are pairwise distinct and are
exactly the links of `sniffed` and `probed`; each returned feed is one of the
contributed feeds. -/
theorem Run_merge_distinct_links (m : Methods) (target : URL) (sched : Schedule)
    (r₁ r₂ r₃ : Ret)
    (h₁ : m.githubMatcher = .returns r₁) (hs₁ : r₁.err ≠ none ∨ r₁.feeds = [])
    (h₂ : m.redditMatcher = .returns r₂) (hs₂ : r₂.err ≠ none ∨ r₂.feeds = [])
    (h₃ : m.youtubeMatcher = .returns r₃) (hs₃ : r₃.err ≠ none ∨ r₃.feeds = [])
    (sniffed probed : List Feed)
    (hsniffed : sniffed = m.tryPageSource.feeds)
    (hprobed : probed =
      if (m.tryWellKnown (target.Scheme ++ "://" ++ target.Host ++ target.Path)).feeds = []
      then (m.tryWellKnown (target.Scheme ++ "://" ++ target.Host)).feeds
      else (m.tryWellKnown (target.Scheme ++ "://" ++ target.Host ++ target.Path)).feeds) :
    ∃ res calls, Run m target sched = (.returns ⟨res, none⟩, calls) ∧
      (res.map Feed.Link).Nodup ∧
      (∀ link, link ∈ res.map Feed.Link ↔ link ∈ (sniffed ++ probed).map Feed.Link) ∧
      (∀ f ∈ res, f ∈ sniffed ++ probed) := by
  have hsvc : tryService m
      = (.returns ⟨[], none⟩, [.githubMatcher, .redditMatcher, .youtubeMatcher]) := by
    unfold tryService
    rw [tryServiceLoop_skip _ _ r₁ _ _ h₁ hs₁, tryServiceLoop_skip _ _ r₂ _ _ h₂ hs₂,
      tryServiceLoop_skip _ _ r₃ _ _ h₃ hs₃]
    rfl
  have hdata :
      (if (m.tryWellKnown (target.Scheme ++ "://" ++ target.Host ++ target.Path)).feeds.length = 0
      then (m.tryWellKnown (target.Scheme ++ "://" ++ target.Host)).feeds
      else (m.tryWellKnown (target.Scheme ++ "://" ++ target.Host ++ target.Path)).feeds)
        = probed := by
    rw [hprobed]; simp only [List.length_eq_zero]
  have hrun : Run m target sched = (.returns ⟨rangeOrder sched.mapOrder
      ((if sched.pageFirst then storeAll probed (storeAll sniffed [])
        else storeAll sniffed (storeAll probed [])).map Prod.snd), none⟩,
      [Call.githubMatcher, .redditMatcher, .youtubeMatcher] ++ [Call.tryPageSource] ++
        (if (m.tryWellKnown (target.Scheme ++ "://" ++ target.Host ++ target.Path)).feeds.length
            = 0
          then [Call.tryWellKnown (target.Scheme ++ "://" ++ target.Host ++ target.Path),
            Call.tryWellKnown (target.Scheme ++ "://" ++ target.Host)]
          else [Call.tryWellKnown (target.Scheme ++ "://" ++ target.Host ++ target.Path)])) := by
    simp only [Run, hsvc]
    simp only [ne_eq, not_true_eq_false, if_false, List.length_nil, hdata, ← hsniffed]
  refine ⟨_, _, hrun, ?_⟩
  have hempty : FeedMap.Good (sniffed ++ probed) [] := ⟨by simp, by simp⟩
  cases sched.pageFirst
  · have a := storeAll_good (sniffed ++ probed) probed [] hempty
      (fun f hf => List.mem_append_right _ hf)
    have b := storeAll_good (sniffed ++ probed) sniffed _ a.1
      (fun f hf => List.mem_append_left _ hf)
    simp only [Bool.false_eq_true, if_false]
    apply rangeOrder_good _ _ _ b.1
    intro k
    rw [b.2 k, a.2 k]
    simp [or_comm]
  · have a := storeAll_good (sniffed ++ probed) sniffed [] hempty
      (fun f hf => List.mem_append_left _ hf)
    have b := storeAll_good (sniffed ++ probed) probed _ a.1
      (fun f hf => List.mem_append_right _ hf)
    simp only [if_true]
    apply rangeOrder_good _ _ _ b.1
    intro k
    rw [b.2 k, a.2 k]
    simp

/-- Claim C3 on `https://example.com/blog`: the page advertises `atom.xml` and
`comments.xml`, the prober finds `atom.xml` under the root; the run returns one
feed for each of the two links. -/
theorem Run_merge_distinct_links_witness :
    ∃ res calls, Run (Finder.methods sampleExternals sampleFinder) exampleBlog ⟨true, [1]⟩
        = (.returns ⟨res, none⟩, calls) ∧
      (res.map Feed.Link).Nodup ∧
      (∀ link, link ∈ res.map Feed.Link ↔
        link ∈ ([Feed.mk "Example (page)" "https://example.com/atom.xml",
          Feed.mk "Comments" "https://example.com/comments.xml"] ++
          [Feed.mk "Example" "https://example.com/atom.xml"]).map Feed.Link) ∧
      (∀ f ∈ res, f ∈ [Feed.mk "Example (page)" "https://example.com/atom.xml",
          Feed.mk "Comments" "https://example.com/comments.xml"] ++
          [Feed.mk "Example" "https://example.com/atom.xml"]) :=
  Run_merge_distinct_links (Finder.methods sampleExternals sampleFinder) exampleBlog ⟨true, [1]⟩
    ⟨[], none⟩ ⟨[], none⟩ ⟨[], none⟩ (by decide) (Or.inr rfl) (by decide) (Or.inr rfl)
    (by decide) (Or.inr rfl)
    [Feed.mk "Example (page)" "https://example.com/atom.xml",
      Feed.mk "Comments" "https://example.com/comments.xml"]
    [Feed.mk "Example" "https://example.com/atom.xml"] (by decide) (by decide)

/-! ## The well-known prober -/

/-- Claim C4: for every base URL and every behaviour of `url.JoinPath`, of the
HTTP client and of the feed decoder, `tryWellKnown` returns a nil error and, in
the order of the ten suffixes, one feed for each suffix whose joined URL was
fetched and decoded with a nil error into a non-empty feed; that feed has the
decoded title and the joined URL as its link, whatever link the document held.
In particular, when the URL joined for `atom.xml` decodes into a non-empty feed
and the URL of every other suffix fails to decode, the result is that one feed. -/
theorem tryWellKnown_accepts (x : Externals) (f : Finder) (baseURL : String) :
    tryWellKnown x f baseURL
      = ⟨["atom.xml", "feed.xml", "rss.xml", "index.xml", "atom.json", "feed.json", "rss.json",
          "index.json", "feed/", "rss/"].filterMap (fun suffix =>
            match x.urlJoinPath baseURL suffix with
            | .error _ => none
            | .ok newTarget =>
              match parseRSSUrl x f newTarget with
              | (_, some _) => none
              | (feed, none) =>
                if isEmptyFeed feed then none else some ⟨feed.Title, newTarget⟩), none⟩
    ∧ ∀ (atomURL : String) (feed : Feed),
        x.urlJoinPath baseURL "atom.xml" = .ok atomURL →
        parseRSSUrl x f atomURL = (feed, none) →
        isEmptyFeed feed = false →
        (∀ suffix ∈ wellKnown, suffix ≠ "atom.xml" → ∀ u, x.urlJoinPath baseURL suffix = .ok u →
          (parseRSSUrl x f u).2 ≠ none) →
        tryWellKnown x f baseURL = ⟨[⟨feed.Title, atomURL⟩], none⟩ := by
  have hmain : tryWellKnown x f baseURL = ⟨wellKnown.filterMap (probe x f baseURL), none⟩ := by
    simp [tryWellKnown, tryWellKnownLoop_eq]
  refine ⟨hmain, ?_⟩
  intro atomURL feed hj hp hne hothers
  have hfail : ∀ suffix ∈ wellKnown, suffix ≠ "atom.xml" → probe x f baseURL suffix = none := by
    intro suffix hmem hs
    unfold probe
    cases hj2 : x.urlJoinPath baseURL suffix with
    | error e => rfl
    | ok u =>
      have := hothers suffix hmem hs u hj2
      rcases hp2 : parseRSSUrl x f u with ⟨feed2, _ | err⟩
      · simp [hp2] at this
      · simp [hp2]
  have hatom : probe x f baseURL "atom.xml" = some ⟨feed.Title, atomURL⟩ := by
    simp [probe, hj, hp, hne]
  rw [hmain]
  simp only [wellKnown, List.filterMap_cons, hatom]
  rw [hfail "feed.xml" (by decide) (by decide), hfail "rss.xml" (by decide) (by decide),
    hfail "index.xml" (by decide) (by decide), hfail "atom.json" (by decide) (by decide),
    hfail "feed.json" (by decide) (by decide), hfail "rss.json" (by decide) (by decide),
    hfail "index.json" (by decide) (by decide), hfail "feed/" (by decide) (by decide),
    hfail "rss/" (by decide) (by decide)]
  rfl

/-- Claim C4 on `https://example.com`, where only `atom.xml` answers with a feed:
one feed is returned, with the probed URL as link although the document names
`https://feeds.example.net/main`. -/
theorem tryWellKnown_accepts_witness :
    parseRSSUrl sampleExternals sampleFinder "https://example.com/atom.xml"
        = (⟨"Example", "https://feeds.example.net/main"⟩, none) ∧
      tryWellKnown sampleExternals sampleFinder "https://example.com"
        = ⟨[⟨"Example", "https://example.com/atom.xml"⟩], none⟩ :=
  ⟨by decide,
    (tryWellKnown_accepts sampleExternals sampleFinder "https://example.com").2
      "https://example.com/atom.xml" ⟨"Example", "https://feeds.example.net/main"⟩
      rfl (by decide) (by decide) (by
        intro suffix hmem hs u hj
        have hu : u = "https://example.com" ++ "/" ++ suffix := by
          simp only [sampleExternals, Except.ok.injEq] at hj
          exact hj.symm
        subst hu
        simp only [wellKnown, List.mem_cons, List.mem_singleton, List.not_mem_nil, or_false]
          at hmem
        rcases hmem with h | h | h | h | h | h | h | h | h | h
        · exact absurd h hs
        all_goals subst h; decide)⟩

/-! ## The GitHub matcher -/

/-- Claim C5: for a target whose hostname ends with `github.com` and whose path
is `/<user>/<repo>` with `<repo>` non-empty: if `<repo>` matches
`^[a-zA-Z0-9][a-zA-Z0-9-_\.]{0,98}[a-zA-Z0-9]$`, githubMatcher returns, with a nil
error, the four feeds `commits`, `releases`, `tags`, `wiki` under
`https://github.com/<user>/<repo>/`, in this order; if it does not match,
githubMatcher returns the empty list and a nil error. -/
theorem githubMatcher_two_segments (target : URL) (user repo : String)
    (hhost : HasSuffix target.Hostname "github.com" = true)
    (hpath : target.Path = "/" ++ user ++ "/" ++ repo)
    (hu : '/' ∉ user.data) (hr : '/' ∉ repo.data) (hne : repo ≠ "") :
    (MatchString githubRepoRe repo = true →
      githubMatcher target = .returns ⟨
        [ ⟨user ++ "/" ++ repo ++ " commits",
            "https://github.com/" ++ user ++ "/" ++ repo ++ "/commits.atom"⟩,
          ⟨user ++ "/" ++ repo ++ " releases",
            "https://github.com/" ++ user ++ "/" ++ repo ++ "/releases.atom"⟩,
          ⟨user ++ "/" ++ repo ++ " tags",
            "https://github.com/" ++ user ++ "/" ++ repo ++ "/tags.atom"⟩,
          ⟨user ++ "/" ++ repo ++ " wiki",
            "https://github.com/" ++ user ++ "/" ++ repo ++ "/wiki.atom"⟩ ],
        none⟩) ∧
    (MatchString githubRepoRe repo = false → githubMatcher target = .returns ⟨[], none⟩) := by
  constructor
  · intro hm
    simp only [githubMatcher, hhost, hpath, SplitN_two user repo hu hr]
    simp [index, hne, hm, genGitHubRepoFeed, String.append_assoc]
  · intro hm
    simp only [githubMatcher, hhost, hpath, SplitN_two user repo hu hr]
    simp [index, hne, hm]

/-- Claim C5 on `https://github.com/torvalds/linux`. -/
theorem githubMatcher_two_segments_witness :
    githubMatcher githubTorvaldsLinux = .returns ⟨
        [ ⟨"torvalds/linux commits", "https://github.com/torvalds/linux/commits.atom"⟩,
          ⟨"torvalds/linux releases", "https://github.com/torvalds/linux/releases.atom"⟩,
          ⟨"torvalds/linux tags", "https://github.com/torvalds/linux/tags.atom"⟩,
          ⟨"torvalds/linux wiki", "https://github.com/torvalds/linux/wiki.atom"⟩ ],
        none⟩ :=
  (githubMatcher_two_segments githubTorvaldsLinux "torvalds" "linux" (by decide) (by decide)
    (by decide) (by decide) (by decide)).1 (by decide)

/-- Claim C6 as stated fails on `https://github.com/bad%20user/linux`: the
username `bad user` is non-empty and fails the username pattern, yet githubMatcher
returns the four repository feeds, not the empty list. -/
theorem githubMatcher_username_counterexample :
    HasSuffix githubBadUserLinux.Hostname "github.com" = true ∧
      githubBadUserLinux.Path = "/" ++ "bad user" ++ "/" ++ "linux" ∧
      "bad user" ≠ "" ∧ MatchString githubUserRe "bad user" = false ∧
      githubMatcher githubBadUserLinux
        = .returns ⟨genGitHubRepoFeed "bad user/linux", none⟩ ∧
      githubMatcher githubBadUserLinux ≠ .returns ⟨[], none⟩ := by
  decide

/-- Claim C6, amended: for a target whose hostname ends with `github.com` and
whose first path segment `<user>` is non-empty and fails the username pattern,
githubMatcher returns the empty list and a nil error for the path `/<user>`, and
for a path `/<user>/<repo>` whose `<repo>` is empty or fails the repository
pattern. When `<repo>` is non-empty and matches the repository pattern, the
username is not checked and the four repository feeds are returned. -/
theorem githubMatcher_username_checked (target : URL) (user repo : String)
    (hhost : HasSuffix target.Hostname "github.com" = true)
    (hu : '/' ∉ user.data) (hr : '/' ∉ repo.data)
    (hne : user ≠ "") (hbad : MatchString githubUserRe user = false) :
    (target.Path = "/" ++ user → githubMatcher target = .returns ⟨[], none⟩) ∧
    (target.Path = "/" ++ user ++ "/" ++ repo →
      (repo = "" ∨ MatchString githubRepoRe repo = false) →
      githubMatcher target = .returns ⟨[], none⟩) ∧
    (target.Path = "/" ++ user ++ "/" ++ repo →
      repo ≠ "" → MatchString githubRepoRe repo = true →
      githubMatcher target = .returns ⟨genGitHubRepoFeed (user ++ "/" ++ repo), none⟩) := by
  refine ⟨?_, ?_, ?_⟩
  · intro hpath
    simp only [githubMatcher, hhost, hpath, SplitN_one user hu]
    simp [index, hne, hbad]
  · intro hpath hrepo
    simp only [githubMatcher, hhost, hpath, SplitN_two user repo hu hr]
    rcases hrepo with hrepo | hrepo
    · simp [index, hne, hbad, hrepo]
    · by_cases he : repo = ""
      · simp [index, hne, hbad, he]
      · simp [index, he, hrepo]
  · intro hpath hrne hm
    simp only [githubMatcher, hhost, hpath, SplitN_two user repo hu hr]
    simp [index, hrne, hm]

/-- Claim C6, amended, on `https://github.com/bad%20user`, and on the repository
paths `/bad user/x-` (empty result) and `/bad user/linux` (four feeds). -/
theorem githubMatcher_username_checked_witness :
    githubMatcher githubBadUser = .returns ⟨[], none⟩ ∧
      githubMatcher { githubBadUser with Path := "/bad user/x-" } = .returns ⟨[], none⟩ ∧
      githubMatcher githubBadUserLinux
        = .returns ⟨genGitHubRepoFeed ("bad user" ++ "/" ++ "linux"), none⟩ :=
  ⟨(githubMatcher_username_checked githubBadUser "bad user" "" (by decide) (by decide)
      (by decide) (by decide) (by decide)).1 (by decide),
    (githubMatcher_username_checked { githubBadUser with Path := "/bad user/x-" } "bad user" "x-"
      (by decide) (by decide) (by decide) (by decide) (by decide)).2.1 (by decide)
      (Or.inr (by decide)),
    (githubMatcher_username_checked githubBadUserLinux "bad user" "linux" (by decide)
      (by decide) (by decide) (by decide) (by decide)).2.2 (by decide) (by decide) (by decide)⟩

/-- Claim C7 at the failing input `https://github.com/`: the path `/` splits into
two empty strings, so the test `splitedLen < 2` for the root path is false, both
names are empty and githubMatcher returns the empty list, not the two global
feeds. The empty path of `https://github.com` does give the two global feeds. -/
theorem githubMatcher_root_slash :
    SplitN githubRootSlash.Path "/" 4 = ["", ""] ∧
      githubMatcher githubRootSlash = .returns ⟨[], none⟩ ∧
      githubMatcher githubRoot = .returns ⟨
        [ ⟨"global public timeline", "https://github.com/timeline"⟩,
          ⟨"global security advisories", "https://github.com/security-advisories.atom"⟩ ],
        none⟩ := by
  decide

/-! ## The Reddit matcher -/

/-- Claim C8: for a target whose hostname ends with `reddit.com` and whose path
is `/r/<sub>`, alone or followed by `/` and a remainder that does not begin with
`comments`, redditMatcher returns, with a nil error, the four feeds `hot`, `new`,
`top`, `rising` under `https://reddit.com/r/<sub>/`, in this order (for every
`<sub>` without a `/`, the non-empty ones included). -/
theorem redditMatcher_sub (target : URL) (sub rest : String)
    (hhost : HasSuffix target.Hostname "reddit.com" = true)
    (hs : '/' ∉ sub.data)
    (hpath : target.Path = "/r/" ++ sub ∨
      (target.Path = "/r/" ++ sub ++ "/" ++ rest ∧ HasPrefix rest "comments" = false)) :
    redditMatcher target = .returns ⟨
      [ ⟨"/r/" ++ sub ++ " hot", "https://reddit.com/r/" ++ sub ++ "/hot/.rss"⟩,
        ⟨"/r/" ++ sub ++ " new", "https://reddit.com/r/" ++ sub ++ "/new/.rss"⟩,
        ⟨"/r/" ++ sub ++ " top", "https://reddit.com/r/" ++ sub ++ "/top/.rss"⟩,
        ⟨"/r/" ++ sub ++ " rising", "https://reddit.com/r/" ++ sub ++ "/rising/.rss"⟩ ],
      none⟩ := by
  have hr : ("/r/" : String) = "/" ++ "r" ++ "/" := by decide
  rcases hpath with hpath | ⟨hpath, hrest⟩
  · have hsplit : SplitN target.Path "/" 4 = ["", "r", sub] := by
      rw [hpath, hr]
      exact SplitN_two "r" sub (by decide) hs
    simp only [redditMatcher, hhost, hsplit]
    simp [index, genRedditSubFeed]
  · have hsplit : SplitN target.Path "/" 4 = ["", "r", sub, rest] := by
      rw [hpath, hr]
      exact SplitN_three "r" sub rest (by decide) hs
    simp only [redditMatcher, hhost, hsplit]
    simp [index, genRedditSubFeed, hrest]

/-- Claim C8 on `https://reddit.com/r/golang`. -/
theorem redditMatcher_sub_witness :
    redditMatcher redditGolang = .returns ⟨
      [ ⟨"/r/golang hot", "https://reddit.com/r/golang/hot/.rss"⟩,
        ⟨"/r/golang new", "https://reddit.com/r/golang/new/.rss"⟩,
        ⟨"/r/golang top", "https://reddit.com/r/golang/top/.rss"⟩,
        ⟨"/r/golang rising", "https://reddit.com/r/golang/rising/.rss"⟩ ],
      none⟩ :=
  redditMatcher_sub redditGolang "golang" "" (by decide) (by decide) (Or.inl (by decide))

/-- Claim C9 at the failing input `https://www.reddit.com/`: the path `/` splits
into two empty strings, the test `splitedLen < 2` for the root path is false, and
line 110 reads `splited[2]`: redditMatcher panics instead of returning the global
feed. The empty path of `https://reddit.com` does give the global feed. -/
theorem redditMatcher_root_slash :
    SplitN redditRootSlash.Path "/" 4 = ["", ""] ∧
      redditMatcher redditRootSlash
        = .panics "runtime error: index out of range [2] with length 2" ∧
      redditMatcher redditRoot
        = .returns ⟨[⟨"global", "https://www.reddit.com/.rss"⟩], none⟩ := by
  decide

/-- Claim C10 at the failing inputs `https://reddit.com/r`, `/user` and `/about`:
a one-segment path splits into two strings, and the read of `splited[2]` at line
110 is out of range: redditMatcher panics. -/
theorem redditMatcher_one_segment_panics :
    SplitN (redditOneSegment "r").Path "/" 4 = ["", "r"] ∧
      redditMatcher (redditOneSegment "r")
        = .panics "runtime error: index out of range [2] with length 2" ∧
      redditMatcher (redditOneSegment "user")
        = .panics "runtime error: index out of range [2] with length 2" ∧
      redditMatcher (redditOneSegment "about")
        = .panics "runtime error: index out of range [2] with length 2" := by
  decide

end Feedfinder
